import Mathlib

/-!
# Verification of the DTS shape importer

A shallow embedding of `import_dts.py` (the geometry / hierarchy / material
reconstruction core of the `io_scene_dts` importer) together with theorems
settling the specification's claims about it.

Conventions of the embedding:
* Python integers are `ℕ` (all quantities involved are non-negative);
  float components of quaternions and UV coordinates are `ℚ` (the importer
  only negates and subtracts them, which is exact).
* Python exceptions are modelled by `Except PyError`; an indexing operation
  that can raise `IndexError` is modelled with `List.getElem?` (`l[i]?`).
* External collaborators (filesystem search, the image store, the Blender
  scene graph) are abstracted as boolean/functional parameters, as the spec
  declares them out of scope.
-/

namespace DtsImport

/-- Runtime errors of the importer paths we model: `assert` failure
(line 118 / line 199 of `import_dts.py`), out-of-range list indexing,
missing dictionary/custom-property key (the spec's `IntegrityError`
surfaces as this at line 199), and use of an unbound local variable
(`teximg` at line 73). -/
inductive PyError
  | assertionError
  | indexError
  | keyError
  | nameError
  deriving DecidableEq, Repr

/-
The `Material` and `Primitive` flag-bit constants live in `DtsTypes.py`,
which is not among the sources under verification; they are modelled from
the spec (§3) as independent single bits, using the standard engine values.
The theorems below depend only on the bits being distinct.
-/

namespace Material

/-- Modelled from the spec: `Material.SWrap` bit from the missing `DtsTypes.py`. -/
def SWrap : ℕ := 0x00000001

/-- Modelled from the spec: `Material.TWrap` bit from the missing `DtsTypes.py`. -/
def TWrap : ℕ := 0x00000002

/-- Modelled from the spec: `Material.Translucent` bit from the missing `DtsTypes.py`. -/
def Translucent : ℕ := 0x00000004

/-- Modelled from the spec: `Material.Additive` bit from the missing `DtsTypes.py`. -/
def Additive : ℕ := 0x00000008

/-- Modelled from the spec: `Material.Subtractive` bit from the missing `DtsTypes.py`. -/
def Subtractive : ℕ := 0x00000010

/-- Modelled from the spec: `Material.SelfIlluminating` bit from the missing `DtsTypes.py`. -/
def SelfIlluminating : ℕ := 0x00000020

/-- Modelled from the spec: `Material.NeverEnvMap` bit from the missing `DtsTypes.py`. -/
def NeverEnvMap : ℕ := 0x00000040

/-- Modelled from the spec: `Material.NoMipMap` bit from the missing `DtsTypes.py`. -/
def NoMipMap : ℕ := 0x00000080

/-- Modelled from the spec: `Material.IFLMaterial` bit from the missing `DtsTypes.py`. -/
def IFLMaterial : ℕ := 0x08000000

end Material

namespace Primitive

/-- Modelled from the spec: `Primitive.Triangles` mode from the missing `DtsTypes.py`. -/
def Triangles : ℕ := 0x00000000

/-- Modelled from the spec: `Primitive.Strip` mode bit from the missing `DtsTypes.py`. -/
def Strip : ℕ := 0x40000000

/-- Modelled from the spec: `Primitive.Fan` mode bit from the missing `DtsTypes.py`. -/
def Fan : ℕ := 0x80000000

/-- Modelled from the spec: `Primitive.Indexed` bit from the missing `DtsTypes.py`. -/
def Indexed : ℕ := 0x20000000

/-- Modelled from the spec: `Primitive.NoMaterial` bit from the missing `DtsTypes.py`. -/
def NoMaterial : ℕ := 0x10000000

/-- Modelled from the spec: `Primitive.MaterialMask` (low bits holding the
material slot) from the missing `DtsTypes.py`. -/
def MaterialMask : ℕ := 0x0FFFFFFF

end Primitive

/-- `import_material` lines 84–91: the `blendMode` custom property.  Python's
`if dmat.flags & mask:` tests the bitwise AND for non-zeroness; no branch
taken leaves the property unset (`none`). -/
def blendMode (flags : ℕ) : Option String :=
  if flags &&& (Material.Additive ||| Material.Subtractive) ≠ 0 then some "both"
  else if flags &&& Material.Additive ≠ 0 then some "additive"
  else if flags &&& Material.Subtractive ≠ 0 then some "subtractive"
  else if flags &&& Material.Translucent ≠ 0 then some "none"
  else none

/-- The Blender material handle produced by `import_material`, restricted to
the fields the claims are about.  `texture = some ()` models a texture slot
with a bound image; `ifl = true` models presence of the `"ifl"` custom
property (set only at lines 101–102); the `ifl*` fields model the custom
properties assigned later by the IFL propagation loop (lines 200–203).
Diffuse colors (default table / random) are omitted: the spec forbids
asserting on the random branch and no claim mentions colors. -/
structure BMat where
  texture : Option Unit
  shadeless : Bool
  transparency : Bool
  blendMode : Option String
  ifl : Bool
  iflName : Option ℕ
  iflFirstFrame : Option ℕ
  iflNumFrames : Option ℕ
  iflTime : Option ℕ
  deriving DecidableEq, Repr

/-- `import_material` lines 40–107.  The filesystem walk (lines 44–63) and
the image store are external collaborators (spec §6); their outcomes enter as
`foundTex` (a texture file was found) and `loadOk` (`bpy.data.images.load`
succeeded).  Faithful to the source: when `foundTex` and the load raises, the
`except` clause only prints, after which line 73 `tex.image = teximg` reads
the unbound local `teximg` and raises `NameError` (`UnboundLocalError`). -/
def import_material (flags : ℕ) (foundTex loadOk : Bool) : Except PyError BMat :=
  match
    (if foundTex then
      if loadOk then Except.ok (some ())
      else Except.error PyError.nameError
    else Except.ok none : Except PyError (Option Unit)) with
  | Except.error e => Except.error e
  | Except.ok tex =>
      Except.ok
        { texture := tex
          shadeless := flags &&& Material.SelfIlluminating ≠ 0
          transparency := flags &&& Material.Translucent ≠ 0
          blendMode := blendMode flags
          ifl := flags &&& Material.IFLMaterial ≠ 0
          iflName := none
          iflFirstFrame := none
          iflNumFrames := none
          iflTime := none }

/-- A decoded triangle: three vertex indices, in emission order. -/
def Tri : Type := ℕ × ℕ × ℕ

instance : DecidableEq Tri := by unfold Tri; infer_instance

/-- Effectful map over a list: the loop body may raise (here: `IndexError`
from out-of-range indexing, modelled as `none`); the first failure aborts the
whole loop, matching Python exception propagation. -/
def traverseOpt (f : α → Option β) : List α → Option (List β)
  | [] => some []
  | a :: l =>
    match f a, traverseOpt f l with
    | some b, some bs => some (b :: bs)
    | _, _ => none

/-- `create_bmesh` lines 129–136 (Strip).  The Python loop
`for i in range(firstElement + 2, firstElement + numElements)` with the
`even` flag starting `True` and toggling each step is re-indexed by the step
number `j` (`i = firstElement + 2 + j`, `even ↔ j % 2 = 0`); the loop runs
`numElements - 2` steps (zero when `numElements ≤ 2`, as for Python's empty
range). -/
def decodeStrip (indices : List ℕ) (firstElement numElements : ℕ) : Option (List Tri) :=
  traverseOpt
    (fun j =>
      let i := firstElement + 2 + j
      indices[i]?.bind fun a =>
      indices[i - 1]?.bind fun b =>
      indices[i - 2]?.bind fun c =>
      some (if j % 2 = 0 then ((a, b, c) : Tri) else (c, b, a)))
    (List.range (numElements - 2))

/-- `create_bmesh` lines 137–144 (Fan): same stepping as Strip, but the even
step's third vertex and the odd step's first vertex are `indices[0]` — the
literal index 0 of the mesh's shared index buffer, exactly as in the source
(`faces.append(((indices[i], indices[i - 1], indices[0]), dmat))`). -/
def decodeFan (indices : List ℕ) (firstElement numElements : ℕ) : Option (List Tri) :=
  traverseOpt
    (fun j =>
      let i := firstElement + 2 + j
      indices[i]?.bind fun a =>
      indices[i - 1]?.bind fun b =>
      indices[0]?.bind fun p =>
      some (if j % 2 = 0 then ((a, b, p) : Tri) else (p, b, a)))
    (List.range (numElements - 2))

/-- Modelled from the spec (§4.1, for comparison with `decodeFan` only):
"the third vertex of every even-step triangle is always
`indices[firstElement]` (the fan pivot) and every odd-step triangle's first
vertex is the same pivot". -/
def decodeFanSpec (indices : List ℕ) (firstElement numElements : ℕ) : Option (List Tri) :=
  traverseOpt
    (fun j =>
      let i := firstElement + 2 + j
      indices[i]?.bind fun a =>
      indices[i - 1]?.bind fun b =>
      indices[firstElement]?.bind fun p =>
      some (if j % 2 = 0 then ((a, b, p) : Tri) else (p, b, a)))
    (List.range (numElements - 2))

/-- `create_bmesh` lines 145–147 (triangle list, the default draw mode):
`for i in range(firstElement + 2, firstElement + numElements, 3)`.  The
Python range has `⌈(numElements - 2) / 3⌉` steps, i.e.
`((numElements - 2) + 2) / 3` in truncated arithmetic (zero when
`numElements ≤ 2`); step `j` has `i = firstElement + 2 + 3 * j`. -/
def decodeList (indices : List ℕ) (firstElement numElements : ℕ) : Option (List Tri) :=
  traverseOpt
    (fun j =>
      let i := firstElement + 2 + 3 * j
      indices[i]?.bind fun a =>
      indices[i - 1]?.bind fun b =>
      indices[i - 2]?.bind fun c =>
      some ((a, b, c) : Tri))
    (List.range ((numElements - 2 + 2) / 3))

/-! ## Claim C1: blend-mode derivation -/

/-- C1, counterexample: the claimed four-way priority fails on the code.
With only the Additive flag set the source's first branch
(`dmat.flags & (Material.Additive | Material.Subtractive)`) is already
non-zero, so the blend mode is `"both"`, not `"additive"`; symmetrically for
a lone Subtractive flag. -/
theorem c1_blendMode_counterexample :
    blendMode Material.Additive ≠ some "additive" ∧
    blendMode Material.Subtractive ≠ some "subtractive" ∧
    blendMode Material.Additive = some "both" ∧
    blendMode Material.Subtractive = some "both" := by decide

/-- C1, amended: for every material descriptor, if Additive or Subtractive
(or both) is set the blend mode is `"both"`; if neither is set and
Translucent is set it is `"none"`; otherwise no blend mode is assigned.  The
`"additive"` and `"subtractive"` branches of the source are unreachable. -/
theorem c1_blendMode_amended (flags : ℕ) :
    blendMode flags =
      if flags &&& (Material.Additive ||| Material.Subtractive) ≠ 0 then some "both"
      else if flags &&& Material.Translucent ≠ 0 then some "none"
      else none := by
  unfold blendMode
  by_cases h : flags &&& (Material.Additive ||| Material.Subtractive) ≠ 0
  · rw [if_pos h, if_pos h]
  · push_neg at h
    have hA : flags &&& Material.Additive = 0 := by
      have h1 : Material.Additive = (Material.Additive ||| Material.Subtractive) &&&
          Material.Additive := by decide
      rw [h1, ← Nat.land_assoc, h]
      decide
    have hS : flags &&& Material.Subtractive = 0 := by
      have h1 : Material.Subtractive = (Material.Additive ||| Material.Subtractive) &&&
          Material.Subtractive := by decide
      rw [h1, ← Nat.land_assoc, h]
      decide
    simp [h, hA, hS]

/-! ## Claim C2: fan pivot -/

/-- C2 (code bug, evaluation): on a fan primitive with `firstElement = 1`
over `indices = [0, 10, 11, 12, 13]`, the code pivots on `indices[0] = 0`
(first conjunct), while the spec's fan decoding pivots on
`indices[firstElement] = 10` (second conjunct): the claimed pivot property
fails for every primitive whose `firstElement` selects a different index
value than `indices[0]`. -/
theorem c2_fan_pivot_eval :
    decodeFan [0, 10, 11, 12, 13] 1 4 = some [(12, 11, 0), (0, 12, 13)] ∧
    decodeFanSpec [0, 10, 11, 12, 13] 1 4 = some [(12, 11, 10), (10, 12, 13)] := by decide

/-! ## Claim C3: texture load failure -/

/-- C3 (code bug, evaluation): with a texture file found but the image load
failing, `import_material` aborts with `NameError` (line 73 reads the local
`teximg`, which the failed `try` block never bound) instead of returning a
material handle without a texture; the two non-failing configurations do
complete. -/
theorem c3_load_failure_eval :
    import_material 0 true false = Except.error PyError.nameError ∧
    (∃ m, import_material 0 true true = Except.ok m ∧ m.texture = some ()) ∧
    (∃ m, import_material 0 false false = Except.ok m ∧ m.texture = none) :=
  ⟨rfl, ⟨_, rfl, rfl⟩, ⟨_, rfl, rfl⟩⟩

/-! ## Decoder helper lemmas -/

/-- If every loop step succeeds, the effectful loop returns the mapped list. -/
theorem traverseOpt_eq_map (f : α → Option β) (g : α → β) (l : List α)
    (h : ∀ a ∈ l, f a = some (g a)) : traverseOpt f l = some (l.map g) := by
  induction l with
  | nil => rfl
  | cons a l ih =>
    have ht := h a (List.mem_cons_self a l)
    have ih' := ih fun b hb => h b (List.mem_cons_of_mem a hb)
    simp [traverseOpt, ht, ih']

/-- A successful effectful loop produces one result per input element. -/
theorem traverseOpt_length (f : α → Option β) :
    ∀ (l : List α) (bs : List β), traverseOpt f l = some bs → bs.length = l.length
  | [], bs, h => by
    injection h with h
    rw [← h]
    rfl
  | a :: l, bs, h => by
    unfold traverseOpt at h
    cases hfa : f a with
    | none => rw [hfa] at h; simp at h
    | some b =>
      cases hrec : traverseOpt f l with
      | none => rw [hfa, hrec] at h; simp at h
      | some bs' =>
        rw [hfa, hrec] at h
        injection h with h
        rw [← h, List.length_cons, List.length_cons, traverseOpt_length f l bs' hrec]

/-- In-range indexing yields `some` of the defaulted lookup. -/
theorem getElem?_eq_some_getD (l : List ℕ) (i : ℕ) (h : i < l.length) :
    l[i]? = some (l.getD i 0) := by
  rw [List.getD_eq_getElem?_getD, List.getElem?_eq_getElem h]
  rfl

/-! ## Claim C4: strip decoding -/

/-- C4: for a strip primitive with `numElements = n ≥ 3` whose element range
lies inside the index buffer, the decoder emits, in iteration order, one
triangle per step `j = 0, …, n - 3` (so exactly `n - 2` of them): with
`i = firstElement + 2 + j`, even steps emit
`(indices[i], indices[i-1], indices[i-2])` and odd steps emit
`(indices[i-2], indices[i-1], indices[i])`. -/
theorem c4_strip_decoding (indices : List ℕ) (fe n : ℕ)
    (h3 : 3 ≤ n) (hlen : fe + n ≤ indices.length) :
    decodeStrip indices fe n =
      some ((List.range (n - 2)).map fun j =>
        if j % 2 = 0
        then ((indices.getD (fe + 2 + j) 0, indices.getD (fe + 1 + j) 0,
              indices.getD (fe + j) 0) : Tri)
        else (indices.getD (fe + j) 0, indices.getD (fe + 1 + j) 0,
              indices.getD (fe + 2 + j) 0)) ∧
    ∀ tris, decodeStrip indices fe n = some tris → tris.length = n - 2 := by
  constructor
  · unfold decodeStrip
    apply traverseOpt_eq_map
    intro j hj
    rw [List.mem_range] at hj
    have e1 : fe + 2 + j - 1 = fe + 1 + j := by omega
    have e2 : fe + 2 + j - 2 = fe + j := by omega
    have l1 : fe + 2 + j < indices.length := by omega
    have l2 : fe + 1 + j < indices.length := by omega
    have l3 : fe + j < indices.length := by omega
    simp only [e1, e2, getElem?_eq_some_getD _ _ l1, getElem?_eq_some_getD _ _ l2,
      getElem?_eq_some_getD _ _ l3, Option.some_bind]
  · intro tris ht
    unfold decodeStrip at ht
    have hl := traverseOpt_length _ _ _ ht
    simpa using hl

/-- C4 witness: the strip of spec §8 over `[0, 1, 2, 3, 4]` emits its three
triangles in order. -/
theorem c4_strip_decoding_witness :
    decodeStrip [0, 1, 2, 3, 4] 0 5 = some [(2, 1, 0), (1, 2, 3), (4, 3, 2)] := by
  have h := (c4_strip_decoding [0, 1, 2, 3, 4] 0 5 (by norm_num) (by simp)).1
  rw [h]
  decide

/-! ## Claim C9: degenerate element counts -/

/-- C9: a primitive with fewer than three elements decodes to no triangles —
and cannot fail, since no index is ever read — in all three draw modes; and a
triangle-list primitive ignores 1–2 trailing elements beyond the last
complete group of three (its decoding equals that of the truncated count). -/
theorem c9_degenerate_and_trailing (indices : List ℕ) (fe n : ℕ) :
    (n < 3 →
      decodeStrip indices fe n = some [] ∧
      decodeFan indices fe n = some [] ∧
      decodeList indices fe n = some []) ∧
    (n % 3 ≠ 0 → decodeList indices fe n = decodeList indices fe (n - n % 3)) := by
  constructor
  · intro hn
    have h2 : n - 2 = 0 := by omega
    have h3 : (n - 2 + 2) / 3 = 0 := by omega
    refine ⟨?_, ?_, ?_⟩
    · unfold decodeStrip
      rw [h2, List.range_zero]
      rfl
    · unfold decodeFan
      rw [h2, List.range_zero]
      rfl
    · unfold decodeList
      rw [h3, List.range_zero]
      rfl
  · intro _
    unfold decodeList
    have h : (n - 2 + 2) / 3 = (n - n % 3 - 2 + 2) / 3 := by omega
    rw [h]

/-- C9 witness: a two-element primitive emits nothing in every mode even with
a one-element index buffer, and a 5-element triangle list decodes exactly as
the truncated 3-element one. -/
theorem c9_degenerate_and_trailing_witness :
    decodeStrip [7] 4 2 = some [] ∧ decodeFan [7] 4 2 = some [] ∧
    decodeList [7] 4 2 = some [] ∧
    decodeList [0, 1, 2, 3, 4] 0 5 = decodeList [0, 1, 2, 3, 4] 0 3 := by
  obtain ⟨a, b, c⟩ := (c9_degenerate_and_trailing [7] 4 2).1 (by norm_num)
  have ht := (c9_degenerate_and_trailing [0, 1, 2, 3, 4] 0 5).2 (by norm_num)
  have h3 : (5 : ℕ) - 5 % 3 = 3 := by norm_num
  rw [h3] at ht
  exact ⟨a, b, c, ht⟩

/-! ## Claim C5: node rotation convention -/

/-- A quaternion as stored by the shape asset reader: `x, y, z, w` fields
(axis part first, scalar last). -/
structure Quat where
  x : ℚ
  y : ℚ
  z : ℚ
  w : ℚ
  deriving DecidableEq, Repr

/-- A Blender `mathutils.Quaternion`, constructed from a `(w, x, y, z)`
tuple. -/
structure BQuat where
  w : ℚ
  x : ℚ
  y : ℚ
  z : ℚ
  deriving DecidableEq, Repr

/-- A shape node: `name` (index into Names) and `parent` (node index, or the
sentinel `-1`). -/
structure DNode where
  name : ℕ
  parent : ℤ
  deriving DecidableEq, Repr

/-- The scene-node handle built per node by `load` lines 222–242, restricted
to the fields the claims mention. -/
structure NodeOb where
  name : ℕ
  parent : Option ℤ
  location : ℚ × ℚ × ℚ
  rotation : BQuat
  deriving DecidableEq, Repr

/-- `load` lines 221–242 (`node_mode == "EMPTY"`): one scene object per node
of `shape.nodes`, in enumeration order; location from
`shape.default_translations[i]`, and rotation built as
`mathutils.Quaternion((-w, x, y, z))` from `shape.default_rotations[i]`
(lines 233–238).  The parallel arrays are read with a defaulted lookup; the
theorems assume the index is in range, as the asset format guarantees. -/
def buildNodeObs (nodes : List DNode) (translations : List (ℚ × ℚ × ℚ))
    (rotations : List Quat) : List NodeOb :=
  nodes.enum.map fun p =>
    { name := p.2.name
      parent := if p.2.parent ≠ -1 then some p.2.parent else none
      location := translations.getD p.1 (0, 0, 0)
      rotation :=
        let q := rotations.getD p.1 ⟨0, 0, 0, 1⟩
        ⟨-q.w, q.x, q.y, q.z⟩ }

/-- C5: the scene node built for node `i` stores rotation `(-w, x, y, z)`
where `(x, y, z, w)` is the node's default rotation quaternion. -/
theorem c5_node_rotation (nodes : List DNode) (translations : List (ℚ × ℚ × ℚ))
    (rotations : List Quat) (i : ℕ) (hi : i < nodes.length)
    (hr : i < rotations.length) :
    ∃ ob, (buildNodeObs nodes translations rotations)[i]? = some ob ∧
      ob.rotation =
        ⟨-(rotations[i].w), rotations[i].x, rotations[i].y, rotations[i].z⟩ := by
  have henum : nodes.enum[i]? = some (i, nodes[i]) := by
    rw [List.getElem?_enum, List.getElem?_eq_getElem hi, Option.map_some']
  unfold buildNodeObs
  rw [List.getElem?_map, henum, Option.map_some']
  refine ⟨_, rfl, ?_⟩
  have hq : rotations.getD i ⟨0, 0, 0, 1⟩ = rotations[i] := by
    rw [List.getD_eq_getElem?_getD, List.getElem?_eq_getElem hr]
    rfl
  simp only [hq]

/-- C5 witness: a single node with quaternion `(1, 2, 3, 4)` yields rotation
`(-4, 1, 2, 3)`. -/
theorem c5_node_rotation_witness :
    ∃ ob, (buildNodeObs [⟨0, -1⟩] [(0, 0, 0)] [⟨1, 2, 3, 4⟩])[0]? = some ob ∧
      ob.rotation = ⟨-4, 1, 2, 3⟩ := by
  have h := c5_node_rotation [⟨0, -1⟩] [(0, 0, 0)] [⟨1, 2, 3, 4⟩] 0 (by simp) (by simp)
  simpa using h

/-! ## Claim C6: UV assignment -/

/-- `create_bmesh` lines 166–169, one loop's data: the loop stores the
triangle's vertex index and the UV `(uv.x, 1 - uv.y)` where
`uv = dmesh.tverts[index]`; an out-of-range vertex index raises
`IndexError`. -/
def uvAt (tverts : List (ℚ × ℚ)) (index : ℕ) : Except PyError (ℕ × (ℚ × ℚ)) :=
  match tverts[index]? with
  | some uv => Except.ok (index, (uv.1, 1 - uv.2))
  | none => Except.error PyError.indexError

/-- `create_bmesh` lines 153–169: polygon `i` owns loops `3i, 3i+1, 3i+2`,
and `zip(poly.loop_indices, verts)` writes the triangle's three vertex
indices to them in order, each with its flipped UV (`uvAt`).  The returned
list is the flat loop sequence of the mesh. -/
def loopData (tverts : List (ℚ × ℚ)) : List Tri → Except PyError (List (ℕ × (ℚ × ℚ)))
  | [] => Except.ok []
  | (a, b, c) :: faces => do
    let ea ← uvAt tverts a
    let eb ← uvAt tverts b
    let ec ← uvAt tverts c
    let rest ← loopData tverts faces
    pure (ea :: eb :: ec :: rest)

/-- Inversion for a successful `Except` bind. -/
theorem except_bind_ok {ε α β : Type} (x : Except ε α) (f : α → Except ε β) (b : β)
    (h : x >>= f = Except.ok b) : ∃ a, x = Except.ok a ∧ f a = Except.ok b := by
  cases x with
  | error e => simp [Bind.bind, Except.bind] at h
  | ok a =>
    refine ⟨a, rfl, ?_⟩
    simpa [Bind.bind, Except.bind] using h

/-- A successful `uvAt` is the flipped source texel. -/
theorem uvAt_ok (tverts : List (ℚ × ℚ)) (i : ℕ) (e : ℕ × (ℚ × ℚ))
    (h : uvAt tverts i = Except.ok e) :
    ∃ uv, tverts[i]? = some uv ∧ e = (i, (uv.1, 1 - uv.2)) := by
  unfold uvAt at h
  cases hv : tverts[i]? with
  | none => rw [hv] at h; simp at h
  | some uv =>
    rw [hv] at h
    injection h with h
    exact ⟨uv, rfl, h.symm⟩

/-- C6: every loop entry the mesh assembler writes carries the UV
`(u, 1 - v)` of the source texture vertex at that loop's vertex index; in
particular the source texel `(1/4, 3/4)` is written as `(1/4, 1/4)`. -/
theorem c6_uv_flip (tverts : List (ℚ × ℚ)) (faces : List Tri) :
    (∀ entries, loopData tverts faces = Except.ok entries →
      ∀ e ∈ entries, ∃ uv, tverts[e.1]? = some uv ∧ e.2 = (uv.1, 1 - uv.2)) ∧
    loopData [(1/4, 3/4)] [((0, 0, 0) : Tri)] =
      Except.ok [(0, (1/4, 1/4)), (0, (1/4, 1/4)), (0, (1/4, 1/4))] := by
  constructor
  · intro entries h e he
    induction faces generalizing entries with
    | nil =>
      injection h with h
      rw [← h] at he
      simp at he
    | cons t faces ih =>
      obtain ⟨a, b, c⟩ := t
      unfold loopData at h
      obtain ⟨ea, ha, h⟩ := except_bind_ok _ _ _ h
      obtain ⟨eb, hb, h⟩ := except_bind_ok _ _ _ h
      obtain ⟨ec, hc, h⟩ := except_bind_ok _ _ _ h
      obtain ⟨rest, hrest, h⟩ := except_bind_ok _ _ _ h
      injection h with h
      rw [← h] at he
      rw [List.mem_cons, List.mem_cons, List.mem_cons] at he
      rcases he with he | he | he | he
      · obtain ⟨uv, huv, hev⟩ := uvAt_ok _ _ _ ha
        exact ⟨uv, by rw [he, hev]; exact huv, by rw [he, hev]⟩
      · obtain ⟨uv, huv, hev⟩ := uvAt_ok _ _ _ hb
        exact ⟨uv, by rw [he, hev]; exact huv, by rw [he, hev]⟩
      · obtain ⟨uv, huv, hev⟩ := uvAt_ok _ _ _ hc
        exact ⟨uv, by rw [he, hev]; exact huv, by rw [he, hev]⟩
      · exact ih rest hrest he
  · show loopData [(1/4, 3/4)] [((0, 0, 0) : Tri)] = _
    have h34 : (1 : ℚ) - 3/4 = 1/4 := by norm_num
    simp [loopData, uvAt, h34, Bind.bind, Except.bind, Pure.pure, Except.pure]

/-- C6 witness: on the one-texel mesh of spec §8, the entry written for
vertex 0 is the flip of the stored texel. -/
theorem c6_uv_flip_witness :
    ∃ uv, ([((1 : ℚ)/4, (3 : ℚ)/4)] : List (ℚ × ℚ))[(0 : ℕ)]? = some uv ∧
      ((1 : ℚ)/4, (1 : ℚ)/4) = (uv.1, 1 - uv.2) := by
  have h := c6_uv_flip [(1/4, 3/4)] [((0, 0, 0) : Tri)]
  simpa using h.1 _ h.2 (0, (1/4, 1/4)) (by simp)

/-! ## Claim C7: the Indexed assertion in mesh assembly -/

/-- A primitive as delivered by the shape asset reader: `type` bitmask,
`firstElement`, `numElements`. -/
structure Prim where
  type : ℕ
  firstElement : ℕ
  numElements : ℕ
  deriving DecidableEq, Repr

/-- `create_bmesh` lines 129–147: draw-mode dispatch for one primitive
(Strip bit, then Fan bit, else the triangle-list default). -/
def decodePrim (indices : List ℕ) (p : Prim) : Option (List Tri) :=
  if p.type &&& Primitive.Strip ≠ 0 then decodeStrip indices p.firstElement p.numElements
  else if p.type &&& Primitive.Fan ≠ 0 then decodeFan indices p.firstElement p.numElements
  else decodeList indices p.firstElement p.numElements

/-- `create_bmesh` lines 120–123: the primitive's material — `none` when the
NoMaterial bit is set, else the shape material at `type & MaterialMask`
(`IndexError` when out of range). -/
def primMaterial (smats : List ℕ) (p : Prim) : Except PyError (Option ℕ) :=
  if p.type &&& Primitive.NoMaterial ≠ 0 then Except.ok none
  else
    match smats[p.type &&& Primitive.MaterialMask]? with
    | some d => Except.ok (some d)
    | none => Except.error PyError.indexError

/-- `create_bmesh` lines 117–147: the per-primitive loop.  Each primitive is
first checked for the Indexed bit (`assert prim.type & Primitive.Indexed`,
line 118: failure raises `AssertionError` and aborts the import); then its
material is resolved and its triangles decoded and appended to `faces`,
tagged with the material.  The material-slot deduplication into
`me.materials` (lines 125–127) does not affect the face list and is not
modelled. -/
def createFaces (smats indices : List ℕ) : List Prim → Except PyError (List (Tri × Option ℕ))
  | [] => Except.ok []
  | p :: prims =>
    if p.type &&& Primitive.Indexed = 0 then Except.error PyError.assertionError
    else
      match primMaterial smats p with
      | Except.error e => Except.error e
      | Except.ok dmat =>
        match decodePrim indices p with
        | none => Except.error PyError.indexError
        | some tris =>
          match createFaces smats indices prims with
          | Except.error e => Except.error e
          | Except.ok rest => Except.ok (tris.map (fun t => (t, dmat)) ++ rest)

/-- Material resolution can only raise `IndexError`, never the assertion. -/
theorem primMaterial_ne_assert (smats : List ℕ) (p : Prim) :
    primMaterial smats p ≠ Except.error PyError.assertionError := by
  unfold primMaterial
  split
  · simp
  · split
    · simp
    · simp

/-- If assembly aborts with the assertion failure, some primitive lacks the
Indexed bit. -/
theorem createFaces_assert_inv (smats indices : List ℕ) :
    ∀ prims : List Prim,
      createFaces smats indices prims = Except.error PyError.assertionError →
      ∃ p ∈ prims, p.type &&& Primitive.Indexed = 0
  | [], h => by simp [createFaces] at h
  | p :: prims, h => by
    unfold createFaces at h
    by_cases hp : p.type &&& Primitive.Indexed = 0
    · exact ⟨p, List.mem_cons_self p prims, hp⟩
    · rw [if_neg hp] at h
      cases hm : primMaterial smats p with
      | error e2 =>
        rw [hm] at h
        simp only [Except.error.injEq] at h
        rw [h] at hm
        exact absurd hm (primMaterial_ne_assert smats p)
      | ok dmat =>
        rw [hm] at h
        cases hd : decodePrim indices p with
        | none => rw [hd] at h; simp at h
        | some tris =>
          rw [hd] at h
          cases hr : createFaces smats indices prims with
          | error e2 =>
            rw [hr] at h
            simp only [Except.error.injEq] at h
            rw [h] at hr
            obtain ⟨q, hq, hq0⟩ := createFaces_assert_inv smats indices prims hr
            exact ⟨q, List.mem_cons_of_mem p hq, hq0⟩
          | ok rest => rw [hr] at h; simp at h

/-- A primitive without the Indexed bit makes the whole assembly abort. -/
theorem createFaces_fails_of_bad (smats indices : List ℕ) :
    ∀ (prims : List Prim) (q : Prim), q ∈ prims → q.type &&& Primitive.Indexed = 0 →
      ∃ e, createFaces smats indices prims = Except.error e
  | [], _, hq, _ => by simp at hq
  | p :: prims, q, hq, hq0 => by
    unfold createFaces
    by_cases hp : p.type &&& Primitive.Indexed = 0
    · rw [if_pos hp]
      exact ⟨_, rfl⟩
    · rw [if_neg hp]
      rw [List.mem_cons] at hq
      have hqin : q ∈ prims := by
        rcases hq with rfl | hq'
        · exact absurd hq0 hp
        · exact hq'
      obtain ⟨e, he⟩ := createFaces_fails_of_bad smats indices prims q hqin hq0
      cases hm : primMaterial smats p with
      | error e2 => exact ⟨e2, rfl⟩
      | ok dmat =>
        cases hd : decodePrim indices p with
        | none => exact ⟨PyError.indexError, rfl⟩
        | some tris => exact ⟨e, by rw [he]⟩

/-- C7: a mesh containing a primitive without the Indexed bit always fails to
assemble (the first such primitive reached raises the `AssertionError` — the
spec's FormatError); conversely, when every primitive carries the Indexed
bit, assembly never fails with that assertion (any remaining failure is an
`IndexError` from a malformed range, a distinct condition). -/
theorem c7_indexed_assert (smats indices : List ℕ) (prims : List Prim) :
    ((∃ p ∈ prims, p.type &&& Primitive.Indexed = 0) →
      ∃ e, createFaces smats indices prims = Except.error e) ∧
    ((∀ p ∈ prims, p.type &&& Primitive.Indexed ≠ 0) →
      createFaces smats indices prims ≠ Except.error PyError.assertionError) := by
  constructor
  · rintro ⟨q, hq, hq0⟩
    exact createFaces_fails_of_bad smats indices prims q hq hq0
  · intro hall hcontra
    obtain ⟨p, hp, hp0⟩ := createFaces_assert_inv smats indices prims hcontra
    exact hall p hp hp0

/-- C7 witness: a lone Strip-typed primitive without the Indexed bit fails;
a primitive with the Indexed (and NoMaterial) bit does not hit the
assertion. -/
theorem c7_indexed_assert_witness :
    (∃ e, createFaces [] [] [⟨Primitive.Strip, 0, 0⟩] = Except.error e) ∧
    createFaces [] [] [⟨Primitive.Indexed ||| Primitive.NoMaterial, 0, 0⟩] ≠
      Except.error PyError.assertionError := by
  constructor
  · exact (c7_indexed_assert [] [] _).1 ⟨_, List.mem_singleton.mpr rfl, by decide⟩
  · exact (c7_indexed_assert [] [] _).2 (by decide)

/-! ## Claim C8: IFL propagation -/

/-- An `IFLMaterial` entry of the shape: material `slot`, animation `name`
(index into Names), `firstFrame`, `numFrames`, `time`. -/
structure IflMaterial where
  slot : ℕ
  name : ℕ
  firstFrame : ℕ
  numFrames : ℕ
  time : ℕ
  deriving DecidableEq, Repr

/-- One iteration of `load` lines 197–203.
`mats[ifl.slot]?` combines `shape.materials[ifl.slot]` (`IndexError` when out
of range) with the `materials` dict lookup (built at lines 191–194 with
exactly one handle per shape material, hence keyed by slot here).  When the
handle lacks the `"ifl"` custom property, `mat["ifl"]` at line 199 raises
`KeyError` — the realisation of the spec's IntegrityError; when the property
is present its value is `True` (line 102), so the `assert` passes and the
four `ifl*` custom properties are copied from the entry. -/
def iflStep (names : ℕ → ℕ) (mats : List BMat) (ifl : IflMaterial) :
    Except PyError (List BMat) :=
  match mats[ifl.slot]? with
  | none => Except.error PyError.indexError
  | some mat =>
    if mat.ifl then
      Except.ok (mats.set ifl.slot
        { mat with
          iflName := some (names ifl.name)
          iflFirstFrame := some ifl.firstFrame
          iflNumFrames := some ifl.numFrames
          iflTime := some ifl.time })
    else Except.error PyError.keyError

/-- `load` lines 197–203: the IFL propagation loop over
`shape.iflmaterials`, threading the material-handle table. -/
def apply_ifl (names : ℕ → ℕ) (mats : List BMat) :
    List IflMaterial → Except PyError (List BMat)
  | [] => Except.ok mats
  | ifl :: ifls =>
    match iflStep names mats ifl with
    | Except.error e => Except.error e
    | Except.ok mats2 => apply_ifl names mats2 ifls

/-- A successful `iflStep` preserves the table's length and every handle's
`"ifl"` property. -/
theorem iflStep_preserves (names : ℕ → ℕ) (mats : List BMat) (ifl : IflMaterial)
    (mats2 : List BMat) (h : iflStep names mats ifl = Except.ok mats2) :
    mats2.length = mats.length ∧
    ∀ s : ℕ, Option.map BMat.ifl mats2[s]? = Option.map BMat.ifl mats[s]? := by
  unfold iflStep at h
  cases hv : mats[ifl.slot]? with
  | none => rw [hv] at h; simp at h
  | some mat =>
    rw [hv] at h
    by_cases hifl : mat.ifl
    · simp only [hifl, if_true] at h
      injection h with h
      rw [← h]
      refine ⟨List.length_set mats _ _, fun s => ?_⟩
      by_cases hs : ifl.slot = s
      · subst hs
        have hlt : ifl.slot < mats.length := by
          have hv2 := hv
          rw [List.getElem?_eq_some] at hv2
          exact hv2.1
        rw [List.getElem?_set_eq_of_lt _ hlt, hv]
        simp [hifl]
      · rw [List.getElem?_set_ne hs]
    · simp [hifl] at h

/-- If some referenced handle lacks the `"ifl"` property (and all slots are
in range), the propagation loop aborts with the `KeyError`. -/
theorem apply_ifl_err (names : ℕ → ℕ) :
    ∀ (mats : List BMat) (ifls : List IflMaterial),
      (∀ ifl ∈ ifls, ifl.slot < mats.length) →
      (∃ ifl ∈ ifls, ∃ m, mats[ifl.slot]? = some m ∧ m.ifl = false) →
      apply_ifl names mats ifls = Except.error PyError.keyError
  | _, [], _, hbad => by
    obtain ⟨ifl, hmem, _⟩ := hbad
    simp at hmem
  | mats, ifl :: ifls, hslots, hbad => by
    have hlt : ifl.slot < mats.length := hslots ifl (List.mem_cons_self ifl ifls)
    obtain ⟨m, hm⟩ : ∃ m, mats[ifl.slot]? = some m := ⟨_, List.getElem?_eq_getElem hlt⟩
    unfold apply_ifl
    by_cases hmi : m.ifl
    · -- the head entry's handle carries the property; the offender is in the tail
      have hstep : iflStep names mats ifl = Except.ok (mats.set ifl.slot
          { m with
            iflName := some (names ifl.name)
            iflFirstFrame := some ifl.firstFrame
            iflNumFrames := some ifl.numFrames
            iflTime := some ifl.time }) := by
        unfold iflStep
        rw [hm]
        simp [hmi]
      rw [hstep]
      obtain ⟨hlen, hpres⟩ := iflStep_preserves names mats ifl _ hstep
      have hbad' : ∃ ifl2 ∈ ifls, ∃ m2,
          (mats.set ifl.slot
            { m with
              iflName := some (names ifl.name)
              iflFirstFrame := some ifl.firstFrame
              iflNumFrames := some ifl.numFrames
              iflTime := some ifl.time })[ifl2.slot]? = some m2 ∧ m2.ifl = false := by
        obtain ⟨ifl2, hmem2, m2, hm2, hf2⟩ := hbad
        rw [List.mem_cons] at hmem2
        rcases hmem2 with rfl | hmem2
        · rw [hm] at hm2
          injection hm2 with hm2
          rw [← hm2] at hf2
          exact absurd hf2 (by simp [hmi])
        · have := hpres ifl2.slot
          rw [hm2] at this
          obtain ⟨m3, hm3, hf3⟩ := Option.map_eq_some'.mp this
          exact ⟨ifl2, hmem2, m3, hm3, by rw [hf3, hf2]⟩
      exact apply_ifl_err names _ ifls
        (fun i hi => by rw [hlen]; exact hslots i (List.mem_cons_of_mem ifl hi)) hbad'
    · -- the head entry itself raises the KeyError
      have hstep : iflStep names mats ifl = Except.error PyError.keyError := by
        unfold iflStep
        rw [hm]
        simp [hmi]
      rw [hstep]

/-- When every referenced handle carries the `"ifl"` property the loop
succeeds, and each slot's final handle holds the attributes of the last entry
referencing it (Python dict-style overwrite); untouched slots are unchanged. -/
theorem apply_ifl_ok (names : ℕ → ℕ) :
    ∀ (mats : List BMat) (ifls : List IflMaterial),
      (∀ ifl ∈ ifls, ∃ m, mats[ifl.slot]? = some m ∧ m.ifl = true) →
      ∃ mats2, apply_ifl names mats ifls = Except.ok mats2 ∧
        mats2.length = mats.length ∧
        ∀ s,
          (match (ifls.filter fun i => i.slot == s).getLast? with
          | some j => ∃ m, mats2[s]? = some m ∧
              m.iflName = some (names j.name) ∧
              m.iflFirstFrame = some j.firstFrame ∧
              m.iflNumFrames = some j.numFrames ∧
              m.iflTime = some j.time
          | none => mats2[s]? = mats[s]?)
  | mats, [], _ => ⟨mats, rfl, rfl, fun s => by simp⟩
  | mats, ifl :: ifls, hall => by
    obtain ⟨m, hm, hmi⟩ := hall ifl (List.mem_cons_self ifl ifls)
    have hlt : ifl.slot < mats.length := by
      have hm2 := hm
      rw [List.getElem?_eq_some] at hm2
      exact hm2.1
    have hstep : iflStep names mats ifl = Except.ok (mats.set ifl.slot
        { m with
          iflName := some (names ifl.name)
          iflFirstFrame := some ifl.firstFrame
          iflNumFrames := some ifl.numFrames
          iflTime := some ifl.time }) := by
      unfold iflStep
      rw [hm]
      simp [hmi]
    obtain ⟨hlen, hpres⟩ := iflStep_preserves names mats ifl _ hstep
    have hall' : ∀ i ∈ ifls, ∃ m2, (mats.set ifl.slot
        { m with
          iflName := some (names ifl.name)
          iflFirstFrame := some ifl.firstFrame
          iflNumFrames := some ifl.numFrames
          iflTime := some ifl.time })[i.slot]? = some m2 ∧ m2.ifl = true := by
      intro i hi
      obtain ⟨m2, hm2, hf2⟩ := hall i (List.mem_cons_of_mem ifl hi)
      have := hpres i.slot
      rw [hm2] at this
      obtain ⟨m3, hm3, hf3⟩ := Option.map_eq_some'.mp this
      exact ⟨m3, hm3, by rw [hf3, hf2]⟩
    obtain ⟨mats3, hok, hlen3, hchar⟩ := apply_ifl_ok names _ ifls hall'
    refine ⟨mats3, ?_, by rw [hlen3, hlen], fun s => ?_⟩
    · unfold apply_ifl
      rw [hstep]
      exact hok
    · have hchars := hchar s
      rw [List.filter_cons]
      cases hL : (ifls.filter fun i => i.slot == s).getLast? with
      | some j =>
        -- a later entry overwrites slot s: its last write is what remains
        rw [hL] at hchars
        have hne : (ifls.filter fun i => i.slot == s) ≠ [] := by
          intro hc
          rw [hc] at hL
          simp at hL
        obtain ⟨x, t, hxt⟩ := List.exists_cons_of_ne_nil hne
        by_cases hseq : (ifl.slot == s) = true
        · rw [if_pos hseq, hxt, List.getLast?_cons_cons, ← hxt, hL]
          exact hchars
        · rw [if_neg hseq, hL]
          exact hchars
      | none =>
        -- no later entry touches slot s: the head (if it matches) wins
        rw [hL] at hchars
        have hch2 : mats3[s]? = (mats.set ifl.slot
            { m with
              iflName := some (names ifl.name)
              iflFirstFrame := some ifl.firstFrame
              iflNumFrames := some ifl.numFrames
              iflTime := some ifl.time })[s]? := hchars
        have hfe : (ifls.filter fun i => i.slot == s) = [] :=
          List.getLast?_eq_none_iff.mp hL
        by_cases hseq : (ifl.slot == s) = true
        · have hs' : ifl.slot = s := by simpa using hseq
          subst hs'
          rw [if_pos hseq, hfe]
          show ∃ m2, mats3[ifl.slot]? = some m2 ∧ _
          rw [hch2, List.getElem?_set_eq_of_lt _ hlt]
          exact ⟨_, rfl, rfl, rfl, rfl, rfl⟩
        · have hs' : ifl.slot ≠ s := by simpa using hseq
          rw [if_neg hseq, hfe]
          show mats3[s]? = mats[s]?
          rw [hch2, List.getElem?_set_ne hs']

/-- C8: if some IFL entry references a handle without the `"ifl"` property
(the spec's IntegrityError), propagation aborts with that error; if every
referenced handle carries the property, it succeeds and copies name,
firstFrame, numFrames and time onto the matching handle (last entry per slot
winning, untouched slots unchanged). -/
theorem c8_ifl_propagation (names : ℕ → ℕ) (mats : List BMat) (ifls : List IflMaterial) :
    ((∀ ifl ∈ ifls, ifl.slot < mats.length) →
      (∃ ifl ∈ ifls, ∃ m, mats[ifl.slot]? = some m ∧ m.ifl = false) →
      apply_ifl names mats ifls = Except.error PyError.keyError) ∧
    ((∀ ifl ∈ ifls, ∃ m, mats[ifl.slot]? = some m ∧ m.ifl = true) →
      ∃ mats2, apply_ifl names mats ifls = Except.ok mats2 ∧
        mats2.length = mats.length ∧
        ∀ s,
          (match (ifls.filter fun i => i.slot == s).getLast? with
          | some j => ∃ m, mats2[s]? = some m ∧
              m.iflName = some (names j.name) ∧
              m.iflFirstFrame = some j.firstFrame ∧
              m.iflNumFrames = some j.numFrames ∧
              m.iflTime = some j.time
          | none => mats2[s]? = mats[s]?)) :=
  ⟨apply_ifl_err names mats ifls, apply_ifl_ok names mats ifls⟩

/-- A minimal handle carrying the `"ifl"` property, for witnesses. -/
def iflHandle : BMat :=
  { texture := none, shadeless := false, transparency := false, blendMode := none,
    ifl := true, iflName := none, iflFirstFrame := none, iflNumFrames := none,
    iflTime := none }

/-- A minimal handle without the `"ifl"` property, for witnesses. -/
def plainHandle : BMat :=
  { texture := none, shadeless := false, transparency := false, blendMode := none,
    ifl := false, iflName := none, iflFirstFrame := none, iflNumFrames := none,
    iflTime := none }

/-- C8 witness: a single entry against a handle lacking the property yields
the KeyError; against a handle with the property, propagation succeeds. -/
theorem c8_ifl_propagation_witness :
    apply_ifl (fun n => n + 100) [plainHandle] [⟨0, 5, 1, 2, 3⟩] =
      Except.error PyError.keyError ∧
    ∃ mats2, apply_ifl (fun n => n + 100) [iflHandle] [⟨0, 5, 1, 2, 3⟩] =
      Except.ok mats2 ∧ mats2.length = 1 := by
  constructor
  · refine (c8_ifl_propagation (fun n => n + 100) [plainHandle] [⟨0, 5, 1, 2, 3⟩]).1
      (fun ifl hi => ?_) ⟨⟨0, 5, 1, 2, 3⟩, List.mem_singleton.mpr rfl, plainHandle, rfl, rfl⟩
    rw [List.mem_singleton] at hi
    subst hi
    simp
  · obtain ⟨mats2, hok, hlen, _⟩ :=
      (c8_ifl_propagation (fun n => n + 100) [iflHandle] [⟨0, 5, 1, 2, 3⟩]).2
        (fun ifl hi => by
          rw [List.mem_singleton] at hi
          subst hi
          exact ⟨iflHandle, rfl, rfl⟩)
    exact ⟨mats2, hok, by rw [hlen]; rfl⟩

/-! ## Claim C10: detail-level grouping -/

/-- A detail level of the shape: `name` (index into Names) and
`objectDetail`. -/
structure DetailLevel where
  name : ℕ
  objectDetail : ℕ
  deriving DecidableEq, Repr

/-- Modelled from the spec (§3): the mesh `type` enum lives in the missing
`DtsTypes.py` — `Null`, `Standard`, and recognised-but-unsupported kinds. -/
inductive MeshType
  | Standard
  | Skin
  | Decal
  | Sorted
  | Null
  deriving DecidableEq, Repr

/-- A mesh as the grouping claims need it: its `type`, shared index buffer
and primitive list (the vertex/normal/tvert buffers are modelled with the
UV claims). -/
structure DMesh where
  type : MeshType
  indices : List ℕ
  primitives : List Prim
  deriving DecidableEq, Repr

/-- `load` lines 206–209: `lod_by_mesh[lod.objectDetail] = lod` for every
detail level in shape order — Python dict insertion, later entries
overwriting earlier ones, so a key maps to the last matching level. -/
def lodDict (lods : List DetailLevel) : ℕ → Option DetailLevel :=
  lods.foldl (fun d lod => fun k => if k = lod.objectDetail then some lod else d k)
    (fun _ => none)

/-- `load` line 307: `shape.meshes[obj.firstMesh + meshIndex]`
(`IndexError` out of range). -/
def meshAt (meshes : List DMesh) (k : ℕ) : Except PyError DMesh :=
  match meshes[k]? with
  | some mesh => Except.ok mesh
  | none => Except.error PyError.indexError

/-- `load` line 327: `shape.names[lod_by_mesh[meshIndex].name]` — a
`meshIndex` absent from the dict raises `KeyError`. -/
def lodGroup (names : ℕ → ℕ) (lodd : ℕ → Option DetailLevel) (mi : ℕ) :
    Except PyError ℕ :=
  match lodd mi with
  | some lod => Except.ok (names lod.name)
  | none => Except.error PyError.keyError

/-- `load` lines 305–332 for one object of the shape (its `firstMesh`,
`numMeshes` and `name` enter as `firstMesh`, the index list
`List.range numMeshes`, and `oname`): Null meshes are skipped silently,
recognised-but-unsupported types are skipped with a logged warning, and each
Standard mesh is assembled (`createFaces`; an assembly failure aborts) and
its created object linked into the group named after
`lod_by_mesh[meshIndex]`.  Returns the `(object name, group name)` pairs of
the created mesh objects, in creation order; the outer loop over
`shape.objects` only concatenates these per-object results. -/
def processMeshList (names : ℕ → ℕ) (smats : List ℕ) (lodd : ℕ → Option DetailLevel)
    (meshes : List DMesh) (firstMesh oname : ℕ) :
    List ℕ → Except PyError (List (ℕ × ℕ))
  | [] => Except.ok []
  | mi :: rest => do
    let mesh ← meshAt meshes (firstMesh + mi)
    if mesh.type = MeshType.Null then
      processMeshList names smats lodd meshes firstMesh oname rest
    else if mesh.type ≠ MeshType.Standard then
      processMeshList names smats lodd meshes firstMesh oname rest
    else do
      let _ ← createFaces smats mesh.indices mesh.primitives
      let g ← lodGroup names lodd mi
      let rest2 ← processMeshList names smats lodd meshes firstMesh oname rest
      pure ((oname, g) :: rest2)

/-- The entry the object loop creates for mesh index `mi` (if any): a mesh
object in the group of `lodd mi`, only for Standard meshes. -/
def createdEntry (names : ℕ → ℕ) (lodd : ℕ → Option DetailLevel)
    (meshes : List DMesh) (firstMesh oname mi : ℕ) : Option (ℕ × ℕ) :=
  match meshes[firstMesh + mi]? with
  | some mesh =>
    if mesh.type = MeshType.Standard then
      (lodd mi).map fun lod => (oname, names lod.name)
    else none
  | none => none

/-- The dict built by lines 206–209 looks up to the last matching detail
level in shape order. -/
theorem lodDict_eq_getLast (lods : List DetailLevel) (k : ℕ) :
    lodDict lods k = (lods.filter fun l => l.objectDetail == k).getLast? := by
  induction lods using List.reverseRecOn with
  | nil => rfl
  | append_singleton t a ih =>
    by_cases hk : k = a.objectDetail
    · subst hk
      simp [lodDict, List.foldl_append, List.filter_append, List.getLast?_concat]
    · have hbeq : (a.objectDetail == k) = false := by
        simp [Ne.symm hk]
      simp only [lodDict, List.foldl_append, List.foldl_cons, List.foldl_nil,
        List.filter_append, List.filter_cons, hbeq, Bool.false_eq_true, if_neg hk,
        List.filter_nil, List.append_nil]
      simpa [lodDict] using ih

/-- Successful per-object iteration: if every visited mesh exists and every
Standard one both assembles and has a detail level, the loop returns exactly
the `createdEntry` of each index, in order. -/
theorem processMeshList_ok (names : ℕ → ℕ) (smats : List ℕ)
    (lodd : ℕ → Option DetailLevel) (meshes : List DMesh) (fm oname : ℕ) :
    ∀ mis : List ℕ,
      (∀ mi ∈ mis, ∃ mesh, meshes[fm + mi]? = some mesh ∧
        (mesh.type = MeshType.Standard →
          (∃ f, createFaces smats mesh.indices mesh.primitives = Except.ok f) ∧
          (lodd mi).isSome)) →
      processMeshList names smats lodd meshes fm oname mis =
        Except.ok (mis.filterMap (createdEntry names lodd meshes fm oname))
  | [], _ => by simp [processMeshList]
  | mi :: rest, h => by
    obtain ⟨mesh, hmesh, hstd⟩ := h mi (List.mem_cons_self mi rest)
    have ih := processMeshList_ok names smats lodd meshes fm oname rest
      (fun x hx => h x (List.mem_cons_of_mem mi hx))
    have hme : meshAt meshes (fm + mi) = Except.ok mesh := by
      unfold meshAt
      rw [hmesh]
    have hce : createdEntry names lodd meshes fm oname mi =
        (if mesh.type = MeshType.Standard then
          (lodd mi).map fun lod => (oname, names lod.name)
        else none) := by
      unfold createdEntry
      rw [hmesh]
    rw [List.filterMap_cons, hce]
    by_cases hnull : mesh.type = MeshType.Null
    · have hns : (mesh.type = MeshType.Standard) = False := by
        rw [hnull]
        simp
      simp only [processMeshList, hme, Bind.bind, Except.bind, if_pos hnull, hns,
        if_false, ih]
    · by_cases hstd2 : mesh.type = MeshType.Standard
      · obtain ⟨⟨f, hcf⟩, hlod⟩ := hstd hstd2
        obtain ⟨lod, hlodeq⟩ := Option.isSome_iff_exists.mp hlod
        have hlg : lodGroup names lodd mi = Except.ok (names lod.name) := by
          unfold lodGroup
          rw [hlodeq]
        simp only [processMeshList, hme, Bind.bind, Except.bind, if_neg hnull,
          hstd2, if_pos, hcf, hlg, ih, hlodeq, Option.map_some']
        simp [Pure.pure, Except.pure]
      · simp only [processMeshList, hme, Bind.bind, Except.bind, if_neg hnull,
          if_pos hstd2, if_neg hstd2, ih]

/-- Failing per-object iteration: if every visited mesh exists and Standard
ones assemble, but some visited Standard mesh has no detail level for its
index, the loop aborts with the `KeyError` from line 327. -/
theorem processMeshList_err (names : ℕ → ℕ) (smats : List ℕ)
    (lodd : ℕ → Option DetailLevel) (meshes : List DMesh) (fm oname : ℕ) :
    ∀ mis : List ℕ,
      (∀ mi ∈ mis, ∃ mesh, meshes[fm + mi]? = some mesh ∧
        (mesh.type = MeshType.Standard →
          ∃ f, createFaces smats mesh.indices mesh.primitives = Except.ok f)) →
      (∃ mi ∈ mis, ∃ mesh, meshes[fm + mi]? = some mesh ∧
        mesh.type = MeshType.Standard ∧ lodd mi = none) →
      processMeshList names smats lodd meshes fm oname mis =
        Except.error PyError.keyError
  | [], _, hbad => by
    obtain ⟨mi, hmem, _⟩ := hbad
    simp at hmem
  | mi :: rest, h, hbad => by
    obtain ⟨mesh, hmesh, hstd⟩ := h mi (List.mem_cons_self mi rest)
    have hme : meshAt meshes (fm + mi) = Except.ok mesh := by
      unfold meshAt
      rw [hmesh]
    by_cases hbadhead : mesh.type = MeshType.Standard ∧ lodd mi = none
    · obtain ⟨f, hcf⟩ := hstd hbadhead.1
      have hlg : lodGroup names lodd mi = Except.error PyError.keyError := by
        unfold lodGroup
        rw [hbadhead.2]
      have hns : ¬mesh.type = MeshType.Null := by
        rw [hbadhead.1]
        simp
      simp only [processMeshList, hme, Bind.bind, Except.bind, if_neg hns,
        hbadhead.1, hcf, hlg]
      simp
    · have hbad' : ∃ x ∈ rest, ∃ mesh2, meshes[fm + x]? = some mesh2 ∧
          mesh2.type = MeshType.Standard ∧ lodd x = none := by
        obtain ⟨x, hxmem, mesh2, hx2, hx3, hx4⟩ := hbad
        rw [List.mem_cons] at hxmem
        rcases hxmem with rfl | hxmem
        · rw [hmesh] at hx2
          injection hx2 with hx2
          rw [← hx2] at hx3
          exact absurd ⟨hx3, hx4⟩ hbadhead
        · exact ⟨x, hxmem, mesh2, hx2, hx3, hx4⟩
      have ih := processMeshList_err names smats lodd meshes fm oname rest
        (fun x hx => h x (List.mem_cons_of_mem mi hx)) hbad'
      by_cases hnull : mesh.type = MeshType.Null
      · simp only [processMeshList, hme, Bind.bind, Except.bind, if_pos hnull, ih]
      · by_cases hstd2 : mesh.type = MeshType.Standard
        · obtain ⟨f, hcf⟩ := hstd hstd2
          obtain ⟨lod, hlodeq⟩ : ∃ lod, lodd mi = some lod := by
            cases hlodr : lodd mi with
            | none => exact absurd ⟨hstd2, hlodr⟩ hbadhead
            | some lod => exact ⟨lod, rfl⟩
          have hlg : lodGroup names lodd mi = Except.ok (names lod.name) := by
            unfold lodGroup
            rw [hlodeq]
          simp only [processMeshList, hme, Bind.bind, Except.bind, if_neg hnull,
            hstd2, hcf, hlg, ih]
          simp
        · simp only [processMeshList, hme, Bind.bind, Except.bind, if_neg hnull,
            if_pos hstd2, ih]

/-- C10: (a) the `lod_by_mesh` dict maps a mesh index to the **last** detail
level in shape order whose `objectDetail` equals it; (b) if some created
(Standard) mesh of the object has no matching detail level, the import
aborts with the `KeyError` of line 327 instead of leaving the mesh
ungrouped; (c) otherwise the loop succeeds and every created mesh object is
paired with the group named after that last matching level
(`createdEntry`). -/
theorem c10_lod_grouping (names : ℕ → ℕ) (smats : List ℕ) (lods : List DetailLevel)
    (meshes : List DMesh) (fm oname n : ℕ)
    (hm : ∀ mi, mi < n → ∃ mesh, meshes[fm + mi]? = some mesh ∧
      (mesh.type = MeshType.Standard →
        ∃ f, createFaces smats mesh.indices mesh.primitives = Except.ok f)) :
    (∀ k, lodDict lods k = (lods.filter fun l => l.objectDetail == k).getLast?) ∧
    ((∃ mi, mi < n ∧ ∃ mesh, meshes[fm + mi]? = some mesh ∧
        mesh.type = MeshType.Standard ∧ lodDict lods mi = none) →
      processMeshList names smats (lodDict lods) meshes fm oname (List.range n) =
        Except.error PyError.keyError) ∧
    ((∀ mi, mi < n → ∀ mesh, meshes[fm + mi]? = some mesh →
        mesh.type = MeshType.Standard → (lodDict lods mi).isSome) →
      processMeshList names smats (lodDict lods) meshes fm oname (List.range n) =
        Except.ok ((List.range n).filterMap
          (createdEntry names (lodDict lods) meshes fm oname))) := by
  refine ⟨lodDict_eq_getLast lods, ?_, ?_⟩
  · rintro ⟨mi, hmi, mesh, h1, h2, h3⟩
    exact processMeshList_err names smats (lodDict lods) meshes fm oname
      (List.range n) (fun x hx => hm x (List.mem_range.mp hx))
      ⟨mi, List.mem_range.mpr hmi, mesh, h1, h2, h3⟩
  · intro hall
    refine processMeshList_ok names smats (lodDict lods) meshes fm oname
      (List.range n) (fun x hx => ?_)
    obtain ⟨mesh, hmesh, hstd⟩ := hm x (List.mem_range.mp hx)
    exact ⟨mesh, hmesh, fun hs =>
      ⟨hstd hs, hall x (List.mem_range.mp hx) mesh hmesh hs⟩⟩

/-- C10 witness: one object, one Standard mesh at index 0; with a detail
level of `objectDetail = 0` the mesh object lands in that level's group,
with no detail levels the import aborts with the `KeyError`. -/
theorem c10_lod_grouping_witness :
    processMeshList (fun x => x) [] (lodDict [⟨7, 0⟩]) [⟨MeshType.Standard, [], []⟩]
      0 3 (List.range 1) = Except.ok [(3, 7)] ∧
    processMeshList (fun x => x) [] (lodDict []) [⟨MeshType.Standard, [], []⟩]
      0 3 (List.range 1) = Except.error PyError.keyError := by
  have hm1 : ∀ mi, mi < 1 → ∃ mesh,
      ([⟨MeshType.Standard, [], []⟩] : List DMesh)[0 + mi]? = some mesh ∧
      (mesh.type = MeshType.Standard →
        ∃ f, createFaces [] mesh.indices mesh.primitives = Except.ok f) := by
    intro mi hmi
    have : mi = 0 := by omega
    subst this
    exact ⟨_, rfl, fun _ => ⟨[], rfl⟩⟩
  constructor
  · have h := (c10_lod_grouping (fun x => x) [] [⟨7, 0⟩] [⟨MeshType.Standard, [], []⟩]
      0 3 1 hm1).2.2 (by
        intro mi hmi mesh hmesh hs
        have : mi = 0 := by omega
        subst this
        rfl)
    rw [h]
    rfl
  · exact (c10_lod_grouping (fun x => x) [] [] [⟨MeshType.Standard, [], []⟩]
      0 3 1 hm1).2.1 ⟨0, by omega, _, rfl, rfl, rfl⟩

example : decodeStrip [0, 1, 2, 3, 4] 0 5 = some [(2, 1, 0), (1, 2, 3), (4, 3, 2)] := by decide

example : decodeFan [0, 1, 2, 3, 4] 0 5 = some [(2, 1, 0), (0, 2, 3), (4, 3, 0)] := by decide

example : decodeList [0, 1, 2, 3, 4, 5] 0 6 = some [(2, 1, 0), (5, 4, 3)] := by decide

example : blendMode Material.Additive = some "both" := by decide

end DtsImport
